import Mathlib

/-!
Verification of the session / route-guard, settlement-navigator, API-client
and chat-session logic of a dining-coordination web client.  Every definition
below is a shallow embedding of the corresponding TypeScript source
(`src/app/router.tsx`, `src/shared/lib/api.ts`, the auth provider, and the
meeting chat page); theorems settle the specified properties against those
embeddings.
-/

/- ### Route guard (`src/app/router.tsx`) -/

/-- `MemberStatus` from `src/shared/lib/api.ts`. -/
inductive MemberStatus
  | PENDING
  | ONBOARDING
  | ACTIVE
  | DELETED
deriving DecidableEq, Repr

/-- The `statusRoute` record in `src/app/router.tsx`. -/
def statusRoute : MemberStatus → String
  | .PENDING => "/terms"
  | .ONBOARDING => "/preferences"
  | .ACTIVE => "/main"
  | .DELETED => "/blocked"

/-- The `publicPaths` set in `src/app/router.tsx`. -/
def publicPaths : List String := ["/", "/terms", "/preferences"]

/-- The `tempPaths` set in `src/app/router.tsx`.  These are the literal member
strings; `Set.has(pathname)` tests exact string equality, so an entry that
contains `:meetingId` only matches a pathname that literally contains the text
`:meetingId`. -/
def tempPaths : List String :=
  [ "/main", "/main-temp", "/event", "/ranking", "/notification", "/mypage",
    "/blocked", "/meetings/new", "/meetings/:meetingId/edit",
    "/meetings/:meetingId", "/meetings/:meetingId/created",
    "/meetings/:meetingId/final", "/votes/new",
    "/meetings/:meetingId/votes/:voteId",
    "/meetings/:meetingId/votes/:voteId/wait",
    "/meetings/:meetingId/votes/:voteId/top3" ]

/-- Outcome of one render of `AppRouter`: the loading placeholder, a
`<Navigate to=... replace>` redirect, or falling through to the `<Routes>`
table. -/
inductive RouteDecision
  | loadingScreen
  | redirect (target : String)
  | render
deriving DecidableEq, Repr

/-- The redirect decision of `AppRouter` (`src/app/router.tsx`, the chain of
early returns guarded by the `loading` check).  The auth provider computes
`status = member?.status ?? null`, so the member/status pair seen by the
router is represented by a single `Option MemberStatus`; `none` is the
anonymous session. -/
def appRouterDecision (loading : Bool) (member : Option MemberStatus)
    (pathname : String) : RouteDecision :=
  if loading then .loadingScreen
  else if member = none ∧ pathname ∉ publicPaths then .redirect "/"
  else if member = some .DELETED ∧ pathname ≠ "/blocked" then .redirect "/blocked"
  else
    match member with
    | some st =>
      if pathname ≠ statusRoute st ∧ ¬(st = .ACTIVE ∧ pathname ∈ tempPaths) then
        .redirect (statusRoute st)
      else .render
    | none => .render

/-- C7: with loading finished, a PENDING member at `/main` is redirected to
`/terms`, a DELETED member at `/mypage` is redirected to `/blocked`, and an
ACTIVE member at `/main-temp` is not redirected. -/
theorem guard_concrete_scenarios :
    appRouterDecision false (some .PENDING) "/main" = .redirect "/terms" ∧
    appRouterDecision false (some .DELETED) "/mypage" = .redirect "/blocked" ∧
    appRouterDecision false (some .ACTIVE) "/main-temp" = .render := by
  refine ⟨?_, ?_, ?_⟩ <;> decide

/-- C3 counterexample: an ACTIVE member at the concrete path `/meetings/123`
— neither a mandated status path nor an exact member of the allow-list — is
redirected to `/main` by the guard; it does not fall through to the route
table (and hence never reaches the not-found view). -/
theorem guard_active_meeting_path_redirects :
    appRouterDecision false (some .ACTIVE) "/meetings/123" = .redirect "/main" := by
  decide

/-- C3 (amended): for an ACTIVE member with loading finished, the guard
performs no redirect exactly on the literal allow-list members (which include
`/main`); every other pathname — concrete meeting paths such as
`/meetings/123` included — is redirected to `/main`, so no pathname falls
through to the not-found view. -/
theorem guard_active_allowlist (p : String) :
    (p ∈ tempPaths → appRouterDecision false (some .ACTIVE) p = .render) ∧
    (p ∉ tempPaths → appRouterDecision false (some .ACTIVE) p = .redirect "/main") := by
  constructor
  · intro hp
    simp [appRouterDecision, statusRoute, hp]
  · intro hp
    have hmain : p ≠ "/main" := by
      intro h
      exact hp (h ▸ (by decide : "/main" ∈ tempPaths))
    simp [appRouterDecision, statusRoute, hp, hmain]

/-- C3 witness: the amended statement instantiated at `/main-temp` (on the
allow-list) and at `/meetings/123` (off the allow-list). -/
theorem guard_active_allowlist_witness :
    appRouterDecision false (some .ACTIVE) "/main-temp" = .render ∧
    appRouterDecision false (some .ACTIVE) "/meetings/123" = .redirect "/main" :=
  ⟨(guard_active_allowlist "/main-temp").1 (by decide),
   (guard_active_allowlist "/meetings/123").2 (by decide)⟩

/-- C9: with loading finished the guard decision is a pure function of its
inputs — evaluating it twice on the same inputs yields the same result — and
every redirect target is a fixed point: evaluating the guard at the target of
any redirect it produces yields no further redirect. -/
theorem guard_redirect_fixed_point (m : Option MemberStatus) (p q : String)
    (h : appRouterDecision false m p = .redirect q) :
    appRouterDecision false m p = appRouterDecision false m p ∧
    appRouterDecision false m q = .render := by
  refine ⟨rfl, ?_⟩
  match m with
  | none =>
    by_cases hp : p ∈ publicPaths
    · simp [appRouterDecision, hp] at h
    · simp [appRouterDecision, hp] at h
      subst h
      decide
  | some .DELETED =>
    by_cases hb : p = "/blocked"
    · simp [appRouterDecision, statusRoute, hb] at h
    · simp [appRouterDecision, statusRoute, hb] at h
      subst h
      decide
  | some .PENDING =>
    by_cases ht : p = "/terms"
    · simp [appRouterDecision, statusRoute, ht] at h
    · simp [appRouterDecision, statusRoute, ht] at h
      subst h
      decide
  | some .ONBOARDING =>
    by_cases ht : p = "/preferences"
    · simp [appRouterDecision, statusRoute, ht] at h
    · simp [appRouterDecision, statusRoute, ht] at h
      subst h
      decide
  | some .ACTIVE =>
    by_cases hp : p ∈ tempPaths
    · simp [appRouterDecision, statusRoute, hp] at h
    · by_cases hm : p = "/main"
      · simp [appRouterDecision, statusRoute, hp, hm] at h
      · simp [appRouterDecision, statusRoute, hp, hm] at h
        subst h
        decide

/-- C9 witness: the fixed-point statement applied to the concrete redirect of
an anonymous session at `/mypage`. -/
theorem guard_redirect_fixed_point_witness :
    appRouterDecision false none "/mypage" = appRouterDecision false none "/mypage" ∧
    appRouterDecision false none "/" = .render :=
  guard_redirect_fixed_point none "/mypage" "/" (by decide)

/- ### Settlement navigator (`src/shared/lib/api.ts`, settlement section) -/

/-- `SettlementNextAction` from `src/entities/settlement` (9 members). -/
inductive SettlementNextAction
  | GO_RECEIPT_UPLOAD
  | GO_OCR_LOADING
  | GO_OCR_FAILED
  | GO_OCR_EDIT
  | GO_MENU_SELECTION
  | GO_WAITING
  | GO_RESULT
  | GO_COMPLETED
  | GO_MEETING_DETAIL_WITH_MODAL
deriving DecidableEq, Repr

/-- `getSettlementPathByAction`, the template literals written as explicit
string concatenation.  The function is total over the 9-member enum by
construction (the TypeScript `default` branch is unreachable for well-typed
input). -/
def getSettlementPathByAction (meetingId : Nat) : SettlementNextAction → String
  | .GO_RECEIPT_UPLOAD => "/meetings/" ++ toString meetingId ++ "/settlement/receipt"
  | .GO_OCR_LOADING => "/meetings/" ++ toString meetingId ++ "/settlement/ocr/loading"
  | .GO_OCR_FAILED => "/meetings/" ++ toString meetingId ++ "/settlement/ocr/failed"
  | .GO_OCR_EDIT => "/meetings/" ++ toString meetingId ++ "/settlement/ocr/edit"
  | .GO_MENU_SELECTION => "/meetings/" ++ toString meetingId ++ "/settlement/selection"
  | .GO_WAITING => "/meetings/" ++ toString meetingId ++ "/settlement/wait"
  | .GO_RESULT => "/meetings/" ++ toString meetingId ++ "/settlement/result"
  | .GO_COMPLETED => "/meetings/" ++ toString meetingId ++ "/settlement/completed"
  | .GO_MEETING_DETAIL_WITH_MODAL => "/meetings/" ++ toString meetingId

/-- `routeBySettlementState`, with the awaited `getSettlementState` response
abstracted to its `nextAction` field.  The pair is the path handed to
`navigate` and whether the caller-supplied `onKeepMeetingDetail` modal
callback was invoked. -/
def routeBySettlementState (meetingId : Nat) (nextAction : SettlementNextAction) :
    String × Bool :=
  if nextAction = .GO_MEETING_DETAIL_WITH_MODAL then
    ("/meetings/" ++ toString meetingId, true)
  else
    (getSettlementPathByAction meetingId nextAction, false)

/-- The constant tail each action appends after `/meetings/{id}`. -/
def settlementPathTail : SettlementNextAction → String
  | .GO_RECEIPT_UPLOAD => "/settlement/receipt"
  | .GO_OCR_LOADING => "/settlement/ocr/loading"
  | .GO_OCR_FAILED => "/settlement/ocr/failed"
  | .GO_OCR_EDIT => "/settlement/ocr/edit"
  | .GO_MENU_SELECTION => "/settlement/selection"
  | .GO_WAITING => "/settlement/wait"
  | .GO_RESULT => "/settlement/result"
  | .GO_COMPLETED => "/settlement/completed"
  | .GO_MEETING_DETAIL_WITH_MODAL => ""

theorem getSettlementPathByAction_eq_tail (meetingId : Nat) (a : SettlementNextAction) :
    getSettlementPathByAction meetingId a =
      "/meetings/" ++ toString meetingId ++ settlementPathTail a := by
  cases a <;> simp [getSettlementPathByAction, settlementPathTail]

theorem string_append_cancel_left {p s t : String} (h : p ++ s = p ++ t) : s = t := by
  apply String.ext
  have hd := congrArg String.data h
  simp only [String.data_append] at hd
  exact List.append_cancel_left hd

/-- C4: `getSettlementPathByAction` is total over the 9-member enum and
injective in the action for every meeting id; every action except
`GO_MEETING_DETAIL_WITH_MODAL` maps into `/meetings/{id}/settlement/...`,
while `GO_MEETING_DETAIL_WITH_MODAL` maps to the meeting-detail path;
`routeBySettlementState` invokes the modal callback exactly on
`GO_MEETING_DETAIL_WITH_MODAL`; and the `GO_OCR_FAILED` scenario at
meeting 42 yields `/meetings/42/settlement/ocr/failed`. -/
theorem settlement_action_routing (meetingId : Nat) (a b : SettlementNextAction) :
    (getSettlementPathByAction meetingId a = getSettlementPathByAction meetingId b → a = b) ∧
    (a ≠ .GO_MEETING_DETAIL_WITH_MODAL →
      getSettlementPathByAction meetingId a =
        "/meetings/" ++ toString meetingId ++ settlementPathTail a ∧
      ∃ rest, settlementPathTail a = "/settlement/" ++ rest) ∧
    (getSettlementPathByAction meetingId .GO_MEETING_DETAIL_WITH_MODAL =
      "/meetings/" ++ toString meetingId) ∧
    ((routeBySettlementState meetingId a).2 = true ↔ a = .GO_MEETING_DETAIL_WITH_MODAL) ∧
    getSettlementPathByAction 42 .GO_OCR_FAILED = "/meetings/42/settlement/ocr/failed" := by
  refine ⟨?_, ?_, ?_, ?_, by decide⟩
  · intro h
    have hd := congrArg String.data h
    rw [getSettlementPathByAction_eq_tail, getSettlementPathByAction_eq_tail] at hd
    simp only [String.data_append, List.append_assoc] at hd
    have h2 : (settlementPathTail a).data = (settlementPathTail b).data :=
      List.append_cancel_left (List.append_cancel_left hd)
    have h3 : settlementPathTail a = settlementPathTail b := String.ext h2
    revert h3
    cases a <;> cases b <;> decide
  · intro ha
    refine ⟨getSettlementPathByAction_eq_tail meetingId a, ?_⟩
    cases a with
    | GO_RECEIPT_UPLOAD => exact ⟨"receipt", by decide⟩
    | GO_OCR_LOADING => exact ⟨"ocr/loading", by decide⟩
    | GO_OCR_FAILED => exact ⟨"ocr/failed", by decide⟩
    | GO_OCR_EDIT => exact ⟨"ocr/edit", by decide⟩
    | GO_MENU_SELECTION => exact ⟨"selection", by decide⟩
    | GO_WAITING => exact ⟨"wait", by decide⟩
    | GO_RESULT => exact ⟨"result", by decide⟩
    | GO_COMPLETED => exact ⟨"completed", by decide⟩
    | GO_MEETING_DETAIL_WITH_MODAL => exact absurd rfl ha
  · simp [getSettlementPathByAction, routeBySettlementState]
  · cases a <;> simp [routeBySettlementState]

/-- C4 witness: the routing statement applied at meeting 42 and concrete
actions, discharging each hypothesis. -/
theorem settlement_action_routing_witness :
    SettlementNextAction.GO_OCR_FAILED = SettlementNextAction.GO_OCR_FAILED ∧
    (getSettlementPathByAction 42 .GO_OCR_FAILED =
      "/meetings/" ++ toString 42 ++ settlementPathTail .GO_OCR_FAILED ∧
     ∃ rest, settlementPathTail SettlementNextAction.GO_OCR_FAILED = "/settlement/" ++ rest) :=
  ⟨(settlement_action_routing 42 .GO_OCR_FAILED .GO_OCR_FAILED).1 rfl,
   (settlement_action_routing 42 .GO_OCR_FAILED .GO_OCR_FAILED).2.1 (by decide)⟩

/- ### API client (`src/shared/lib/api.ts`: `request`, `refreshSession`) -/

/-- The `{ message, data, detail? }` envelope; the `data` payload is kept
opaque as its JSON text. -/
structure ApiEnvelope where
  message : String
  data : Option String
  detail : Option String
deriving DecidableEq, Repr

/-- `ApiError` from `src/shared/lib/api.ts`. -/
structure ApiError where
  message : String
  status : Nat
  detail : Option String
deriving DecidableEq, Repr

/-- One `fetch` response: HTTP status, `statusText`, and the body as parsed by
`parseJson` (`none` models a 204, an empty body, or unparseable JSON). -/
structure FetchResponse where
  status : Nat
  statusText : String
  envelope : Option ApiEnvelope
deriving DecidableEq, Repr

/-- The tail of `request` after the retry check: on `!response.ok` throw the
classified `ApiError` built from the envelope (message falling back to
`statusText`), otherwise unwrap the envelope `data`. -/
def settleResponse (r : FetchResponse) : Except ApiError (Option String) :=
  if 200 ≤ r.status ∧ r.status < 300 then
    .ok (r.envelope.bind (·.data))
  else
    .error { message := (r.envelope.map (·.message)).getD r.statusText
           , status := r.status
           , detail := r.envelope.bind (·.detail) }

/-- Observable trace of one `request` call: number of fetches of the path,
whether `refreshSession` was invoked, and the settled outcome. -/
structure RequestTrace where
  attempts : Nat
  refreshCalled : Bool
  outcome : Except ApiError (Option String)
deriving Repr

/-- `request` (`src/shared/lib/api.ts`) with the network abstracted: `resp1`
answers the first fetch, `refreshOk` is the result of `refreshSession()`
(itself a `POST /api/v1/auth/refresh` carrying `skipRefresh: true`), and
`resp2` answers the retried fetch.  The retry re-enters `request` with
`skipRefresh: true`, so it can never retry again. -/
def requestModel (skipRefresh : Bool) (resp1 : FetchResponse) (refreshOk : Bool)
    (resp2 : FetchResponse) : RequestTrace :=
  if (resp1.status = 401 ∨ resp1.status = 403) ∧ skipRefresh = false then
    if refreshOk then
      { attempts := 2, refreshCalled := true, outcome := settleResponse resp2 }
    else
      { attempts := 1, refreshCalled := true, outcome := settleResponse resp1 }
  else
    { attempts := 1, refreshCalled := false, outcome := settleResponse resp1 }

/-- C5 counterexample: a 500 response never triggers the transparent retry,
even though a session refresh would succeed — the client issues a single
fetch, never calls `refreshSession`, and surfaces the classified error
immediately.  This refutes the claim that every non-2xx response triggers
exactly one retry after a successful refresh. -/
theorem request_500_not_retried :
    requestModel false ⟨500, "Internal Server Error", none⟩ true ⟨200, "OK", none⟩ =
      { attempts := 1, refreshCalled := false,
        outcome := .error ⟨"Internal Server Error", 500, none⟩ } := by
  rfl

/-- C5 (amended): only a 401/403 response on a request not flagged
`skipRefresh` triggers the transparent retry; the retry happens exactly once
and only after a successful `refreshSession` call; every other non-2xx
response — and a 401/403 whose refresh fails — surfaces a classified
`ApiError` carrying the envelope message (falling back to `statusText`), the
HTTP status and the envelope detail; at most two fetches are ever issued for
one original request. -/
theorem request_retry_contract (skipRefresh : Bool) (resp1 : FetchResponse)
    (refreshOk : Bool) (resp2 : FetchResponse) :
    (requestModel skipRefresh resp1 refreshOk resp2).attempts ≤ 2 ∧
    ((requestModel skipRefresh resp1 refreshOk resp2).attempts = 2 ↔
      (resp1.status = 401 ∨ resp1.status = 403) ∧ skipRefresh = false ∧ refreshOk = true) ∧
    ((requestModel skipRefresh resp1 refreshOk resp2).refreshCalled = true ↔
      (resp1.status = 401 ∨ resp1.status = 403) ∧ skipRefresh = false) ∧
    (¬(200 ≤ resp1.status ∧ resp1.status < 300) →
      ¬((resp1.status = 401 ∨ resp1.status = 403) ∧ skipRefresh = false ∧ refreshOk = true) →
      (requestModel skipRefresh resp1 refreshOk resp2).outcome =
        .error { message := (resp1.envelope.map (·.message)).getD resp1.statusText
               , status := resp1.status
               , detail := resp1.envelope.bind (·.detail) }) ∧
    ((requestModel skipRefresh resp1 refreshOk resp2).attempts = 2 →
      (requestModel skipRefresh resp1 refreshOk resp2).outcome = settleResponse resp2) := by
  by_cases h1 : (resp1.status = 401 ∨ resp1.status = 403) ∧ skipRefresh = false
  · have hnot2xx : ¬(200 ≤ resp1.status ∧ resp1.status < 300) := by
      rcases h1.1 with h | h <;> omega
    cases refreshOk
    · have hm : requestModel skipRefresh resp1 false resp2 =
          { attempts := 1, refreshCalled := true, outcome := settleResponse resp1 } := by
        unfold requestModel
        rw [if_pos h1]
        simp
      rw [hm]
      refine ⟨by simp, ?_, ?_, ?_, ?_⟩
      · constructor
        · intro h
          simp at h
        · intro h
          simp at h
      · simp [h1.1, h1.2]
      · intro _ _
        simp [settleResponse, hnot2xx]
      · intro h
        simp at h
    · have hm : requestModel skipRefresh resp1 true resp2 =
          { attempts := 2, refreshCalled := true, outcome := settleResponse resp2 } := by
        unfold requestModel
        rw [if_pos h1]
        simp
      rw [hm]
      refine ⟨by simp, ?_, ?_, ?_, ?_⟩
      · simp [h1.1, h1.2]
      · simp [h1.1, h1.2]
      · intro _ hno
        exact absurd ⟨h1.1, h1.2, rfl⟩ hno
      · intro _
        rfl
  · have hm : requestModel skipRefresh resp1 refreshOk resp2 =
        { attempts := 1, refreshCalled := false, outcome := settleResponse resp1 } := by
      unfold requestModel
      rw [if_neg h1]
    rw [hm]
    refine ⟨by simp, ?_, ?_, ?_, ?_⟩
    · constructor
      · intro h
        simp at h
      · intro h
        exact absurd ⟨h.1, h.2.1⟩ h1
    · constructor
      · intro h
        simp at h
      · intro h
        exact absurd h h1
    · intro hnot2xx _
      simp [settleResponse, hnot2xx]
    · intro h
      simp at h

/-- C5 witness: the amended contract applied to a 500 response (no retry,
classified error) and to a 401 response with a successful refresh (one
retry, outcome of the second fetch). -/
theorem request_retry_contract_witness :
    (requestModel false ⟨500, "Internal Server Error", none⟩ true ⟨200, "OK", none⟩).outcome =
      .error { message := ((none : Option ApiEnvelope).map (·.message)).getD "Internal Server Error"
             , status := 500
             , detail := (none : Option ApiEnvelope).bind (·.detail) } ∧
    (requestModel false ⟨401, "Unauthorized", none⟩ true ⟨200, "OK", none⟩).outcome =
      settleResponse ⟨200, "OK", none⟩ :=
  ⟨(request_retry_contract false ⟨500, "Internal Server Error", none⟩ true
      ⟨200, "OK", none⟩).2.2.2.1 (by decide) (by decide),
   (request_retry_contract false ⟨401, "Unauthorized", none⟩ true
      ⟨200, "OK", none⟩).2.2.2.2 (by rfl)⟩

/- ### Session store (`src/app/providers/AuthProvider.tsx`) -/

/-- `PreferenceChoice` from `src/shared/lib/api.ts`. -/
structure PreferenceChoice where
  code : String
  label : String
  emoji : String
deriving DecidableEq, Repr

/-- `MemberPreferences` from `src/shared/lib/api.ts`. -/
structure MemberPreferences where
  allergyGroups : List PreferenceChoice
  preferredCategories : List PreferenceChoice
  dislikedCategories : List PreferenceChoice
deriving DecidableEq, Repr

/-- `MemberProfile` from `src/shared/lib/api.ts`. -/
structure MemberProfile where
  memberId : Nat
  nickname : String
  profileImageUrl : Option String
  thumbnailImageUrl : Option String
  status : MemberStatus
  createdAt : String
  updatedAt : String
  preferences : Option MemberPreferences
deriving DecidableEq, Repr

/-- Outcome of the awaited `getMemberMe()` call inside `AuthProvider.refresh`:
a profile, a thrown `ApiError`, or any other thrown value. -/
inductive ProfileFetchResult
  | ok (profile : MemberProfile)
  | thrownApiError (e : ApiError)
  | thrownOther
deriving Repr

/-- `AuthProvider.refresh` (`src/app/providers/AuthProvider.tsx`): given the
previous `member` state and the result of the profile fetch, returns the
member state and the `loading` flag after the operation completes.  The
`try`/`catch`/`finally` swallows every thrown value — the catch branch only
inspects `ApiError` instances with status 401/403 — so the model is a total
function: no exception surfaces to the caller. -/
def authRefresh (prev : Option MemberProfile) :
    ProfileFetchResult → Option MemberProfile × Bool
  | .ok p => (some p, false)
  | .thrownApiError e =>
    if e.status = 401 ∨ e.status = 403 then (none, false) else (prev, false)
  | .thrownOther => (prev, false)

/-- C6: `refresh()` sets the member to the fetched profile on success; on an
`ApiError` with status 401 or 403 it resets the member to anonymous and
surfaces no exception; on any other failure it leaves the previous member
untouched; and `loading` is `false` when the operation completes, in every
case. -/
theorem auth_refresh_contract (prev : Option MemberProfile) (r : ProfileFetchResult) :
    ((authRefresh prev r).2 = false) ∧
    (∀ p, r = .ok p → (authRefresh prev r).1 = some p) ∧
    (∀ e, r = .thrownApiError e → (e.status = 401 ∨ e.status = 403) →
      (authRefresh prev r).1 = none) ∧
    (∀ e, r = .thrownApiError e → ¬(e.status = 401 ∨ e.status = 403) →
      (authRefresh prev r).1 = prev) ∧
    (r = .thrownOther → (authRefresh prev r).1 = prev) := by
  refine ⟨?_, ?_, ?_, ?_, ?_⟩
  · cases r with
    | ok p => rfl
    | thrownApiError e =>
      by_cases h : e.status = 401 ∨ e.status = 403 <;> simp [authRefresh, h]
    | thrownOther => rfl
  · intro p hp
    subst hp
    rfl
  · intro e he hst
    subst he
    simp [authRefresh, hst]
  · intro e he hst
    subst he
    simp [authRefresh, hst]
  · intro ho
    subst ho
    rfl

/-- A concrete profile used by witnesses. -/
def sampleProfile : MemberProfile :=
  { memberId := 7, nickname := "mina", profileImageUrl := none
  , thumbnailImageUrl := none, status := .ACTIVE
  , createdAt := "2025-01-01", updatedAt := "2025-01-02", preferences := none }

/-- C6 witness: the contract applied to a 401 `ApiError` (member reset to
anonymous) and to a non-auth failure (member untouched). -/
theorem auth_refresh_contract_witness :
    (authRefresh (some sampleProfile) (.thrownApiError ⟨"Unauthorized", 401, none⟩)).1 = none ∧
    (authRefresh (some sampleProfile) .thrownOther).1 = some sampleProfile :=
  ⟨(auth_refresh_contract (some sampleProfile)
      (.thrownApiError ⟨"Unauthorized", 401, none⟩)).2.2.1
      ⟨"Unauthorized", 401, none⟩ rfl (Or.inl rfl),
   (auth_refresh_contract (some sampleProfile) .thrownOther).2.2.2.2 rfl⟩

/- ### Chat message log (meeting chat page, `MeetingChatPage`) -/

/-- `ChatMessageType` (`'TEXT' | 'IMAGE' | 'SYSTEM'`). -/
inductive ChatMessageType
  | TEXT
  | IMAGE
  | SYSTEM
deriving DecidableEq, Repr

/-- `ChatSender`. -/
structure ChatSender where
  user_id : Nat
  name : String
  profile_image_url : Option String
deriving DecidableEq, Repr

/-- `ChatMessageItem`; the `unread_count?: number | null` field is collapsed
to one `Option Nat` (`none` for both absent and `null`). -/
structure ChatMessageItem where
  message_id : Nat
  unread_count : Option Nat
  type : ChatMessageType
  content : String
  sender : Option ChatSender
  created_at : String
deriving DecidableEq, Repr

/-- The chat-log state: the `messages` React state plus the
`messageIdSetRef` dedupe set that the page mutates alongside it. -/
structure ChatLogState where
  messages : List ChatMessageItem
  messageIdSet : Finset Nat
deriving DecidableEq

/-- The ids of a message list, in order. -/
def msgIds (l : List ChatMessageItem) : List Nat := l.map (·.message_id)

/-- `resetMessages`: replace the log and rebuild the id set from the items
(initial load). -/
def resetMessages (items : List ChatMessageItem) : ChatLogState :=
  { messages := items, messageIdSet := (msgIds items).toFinset }

/-- `appendIncomingMessage`: ignore a message whose id is already present,
otherwise add its id and append it (live push). -/
def appendIncomingMessage (s : ChatLogState) (message : ChatMessageItem) : ChatLogState :=
  if message.message_id ∈ s.messageIdSet then s
  else { messages := s.messages ++ [message]
       , messageIdSet := insert message.message_id s.messageIdSet }

/-- The dedupe loop of `prependOlderMessages`: walk `olderItems`, skip items
whose id is already in the evolving set, keep the rest in order while adding
their ids. -/
def dedupeOlder (seen : Finset Nat) :
    List ChatMessageItem → List ChatMessageItem × Finset Nat
  | [] => ([], seen)
  | item :: rest =>
    if item.message_id ∈ seen then dedupeOlder seen rest
    else
      let next := dedupeOlder (insert item.message_id seen) rest
      (item :: next.1, next.2)

/-- `prependOlderMessages`: dedupe the fetched (already reversed) older page
against the id set, then prepend the new items; both early returns of the
source are kept (when every item was a duplicate the set ref keeps its — then
unchanged — contents and the list is untouched). -/
def prependOlderMessages (s : ChatLogState) (olderItems : List ChatMessageItem) :
    ChatLogState :=
  if olderItems.isEmpty then s
  else
    let next := dedupeOlder s.messageIdSet olderItems
    if next.1.isEmpty then { s with messageIdSet := next.2 }
    else { messages := next.1 ++ s.messages, messageIdSet := next.2 }

/-- One chat-log mutation, tagged by its origin: `initialLoad` and
`olderPage` carry a fetched page already reversed to ascending order,
`livePush` carries one `message_created` event. -/
inductive ChatLogOp
  | initialLoad (items : List ChatMessageItem)
  | olderPage (items : List ChatMessageItem)
  | livePush (message : ChatMessageItem)
deriving Repr

def chatStep (s : ChatLogState) : ChatLogOp → ChatLogState
  | .initialLoad items => resetMessages items
  | .olderPage items => prependOlderMessages s items
  | .livePush message => appendIncomingMessage s message

def chatRun (s : ChatLogState) : List ChatLogOp → ChatLogState
  | [] => s
  | op :: ops => chatRun (chatStep s op) ops

/-- What the backend guarantees about one arriving batch relative to the
current log: a fetched page, reversed, is strictly ascending; the ids of an
older page that are not already present lie below every id in the log (it is
the window right before the pagination cursor, overlap allowed); a live push
carries an id above every id in the log unless it duplicates a present
message. -/
def ArrivalOk (s : ChatLogState) : ChatLogOp → Prop
  | .initialLoad items => List.Pairwise (· < ·) (msgIds items)
  | .olderPage items =>
    List.Pairwise (· < ·) (msgIds items) ∧
    ∀ x ∈ items, x.message_id ∉ s.messageIdSet →
      ∀ y ∈ s.messages, x.message_id < y.message_id
  | .livePush message =>
    message.message_id ∈ s.messageIdSet ∨
    ∀ y ∈ s.messages, y.message_id < message.message_id

def RunOk (s : ChatLogState) : List ChatLogOp → Prop
  | [] => True
  | op :: ops => ArrivalOk s op ∧ RunOk (chatStep s op) ops

instance instDecidableArrivalOk (s : ChatLogState) (op : ChatLogOp) :
    Decidable (ArrivalOk s op) := by
  cases op <;> unfold ArrivalOk <;> infer_instance

instance instDecidableRunOk (s : ChatLogState) :
    (ops : List ChatLogOp) → Decidable (RunOk s ops)
  | [] => isTrue trivial
  | op :: ops =>
    haveI : Decidable (RunOk (chatStep s op) ops) :=
      instDecidableRunOk (chatStep s op) ops
    inferInstanceAs (Decidable (ArrivalOk s op ∧ RunOk (chatStep s op) ops))

/-- The invariant: the log is strictly ascending by id and the dedupe set
holds exactly the ids of the log. -/
def ChatLogInv (s : ChatLogState) : Prop :=
  List.Pairwise (· < ·) (msgIds s.messages) ∧
  s.messageIdSet = (msgIds s.messages).toFinset

/-- The state of the log right after mount. -/
def chatInit : ChatLogState := { messages := [], messageIdSet := ∅ }

theorem chatInit_inv : ChatLogInv chatInit := by
  constructor <;> simp [chatInit, msgIds]

theorem dedupeOlder_sublist (seen : Finset Nat) (l : List ChatMessageItem) :
    (dedupeOlder seen l).1.Sublist l := by
  induction l generalizing seen with
  | nil => simp [dedupeOlder]
  | cons item rest ih =>
    unfold dedupeOlder
    by_cases h : item.message_id ∈ seen
    · rw [if_pos h]
      exact (ih seen).cons item
    · rw [if_neg h]
      exact (ih (insert item.message_id seen)).cons₂ item

theorem dedupeOlder_not_seen (seen : Finset Nat) (l : List ChatMessageItem) :
    ∀ x ∈ (dedupeOlder seen l).1, x.message_id ∉ seen := by
  induction l generalizing seen with
  | nil => simp [dedupeOlder]
  | cons item rest ih =>
    unfold dedupeOlder
    by_cases h : item.message_id ∈ seen
    · rw [if_pos h]
      exact ih seen
    · rw [if_neg h]
      intro x hx
      rcases List.mem_cons.mp hx with hx | hx
      · subst hx
        exact h
      · intro hmem
        exact ih (insert item.message_id seen) x hx (Finset.mem_insert_of_mem hmem)

theorem dedupeOlder_set (seen : Finset Nat) (l : List ChatMessageItem) :
    (dedupeOlder seen l).2 = seen ∪ (msgIds (dedupeOlder seen l).1).toFinset := by
  induction l generalizing seen with
  | nil => simp [dedupeOlder, msgIds]
  | cons item rest ih =>
    unfold dedupeOlder
    by_cases h : item.message_id ∈ seen
    · rw [if_pos h]
      exact ih seen
    · rw [if_neg h]
      have := ih (insert item.message_id seen)
      simp only [msgIds, List.map_cons, List.toFinset_cons] at this ⊢
      rw [this]
      ext a
      simp

theorem chatStep_inv {s : ChatLogState} {op : ChatLogOp}
    (hs : ChatLogInv s) (hop : ArrivalOk s op) : ChatLogInv (chatStep s op) := by
  obtain ⟨hsort, hset⟩ := hs
  cases op with
  | initialLoad items =>
    exact ⟨hop, rfl⟩
  | livePush message =>
    show ChatLogInv (appendIncomingMessage s message)
    unfold appendIncomingMessage
    by_cases hmem : message.message_id ∈ s.messageIdSet
    · rw [if_pos hmem]
      exact ⟨hsort, hset⟩
    · rw [if_neg hmem]
      rcases hop with hop | hop
      · exact absurd hop hmem
      · constructor
        · simp only [msgIds, List.map_append, List.map_cons, List.map_nil]
          rw [List.pairwise_append]
          refine ⟨hsort, List.pairwise_singleton _ _, ?_⟩
          intro a ha b hb
          simp only [List.mem_singleton] at hb
          subst hb
          simp only [msgIds, List.mem_map] at ha
          obtain ⟨y, hy, rfl⟩ := ha
          exact hop y hy
        · simp only [msgIds, List.map_append, List.map_cons, List.map_nil,
            List.toFinset_append, List.toFinset_cons, List.toFinset_nil]
          rw [hset, Finset.union_comm]
          simp [msgIds, Finset.insert_eq]
  | olderPage items =>
    show ChatLogInv (prependOlderMessages s items)
    unfold prependOlderMessages
    by_cases hemp : items.isEmpty
    · rw [if_pos hemp]
      exact ⟨hsort, hset⟩
    · rw [if_neg hemp]
      have hsub := dedupeOlder_sublist s.messageIdSet items
      have hnew := dedupeOlder_not_seen s.messageIdSet items
      have hsetd := dedupeOlder_set s.messageIdSet items
      by_cases hded : (dedupeOlder s.messageIdSet items).1.isEmpty
      · rw [if_pos hded]
        have hde : (dedupeOlder s.messageIdSet items).1 = [] :=
          List.isEmpty_iff.mp hded
        refine ⟨hsort, ?_⟩
        rw [hsetd, hde]
        simp [msgIds, hset]
      · rw [if_neg hded]
        have hpaird : List.Pairwise (· < ·) (msgIds (dedupeOlder s.messageIdSet items).1) := by
          exact List.Pairwise.sublist (List.Sublist.map _ hsub) hop.1
        constructor
        · simp only [msgIds, List.map_append]
          rw [List.pairwise_append]
          refine ⟨hpaird, hsort, ?_⟩
          intro a ha b hb
          simp only [List.mem_map] at ha hb
          obtain ⟨x, hx, rfl⟩ := ha
          obtain ⟨y, hy, rfl⟩ := hb
          exact hop.2 x (hsub.mem hx) (hnew x hx) y hy
        · simp only [msgIds, List.map_append, List.toFinset_append]
          rw [hsetd, hset, Finset.union_comm]
          simp [msgIds]

theorem chatRun_inv {s : ChatLogState} (hs : ChatLogInv s) :
    ∀ {ops : List ChatLogOp}, RunOk s ops → ChatLogInv (chatRun s ops)
  | [], _ => hs
  | _ :: _, h => chatRun_inv (chatStep_inv hs h.1) h.2

/-- A chat message with only its id relevant, for concrete scenarios. -/
def mkMsg (i : Nat) : ChatMessageItem :=
  { message_id := i, unread_count := none, type := .TEXT, content := "m"
  , sender := none, created_at := "2025-01-01T00:00:00Z" }

/-- C1: starting from the freshly mounted (empty) log, any sequence of
initial-load, older-page and live-push operations whose batches satisfy the
arrival conditions — overlapping ids expressly allowed — leaves the log
strictly ascending by `message_id` with no duplicate ids, and keeps the
dedupe set equal to the set of ids in the log; in particular merging the
older page `[8, 9, 10]` into the log `[10, 11, 12]` yields
`[8, 9, 10, 11, 12]`. -/
theorem chat_log_sorted_nodup (ops : List ChatLogOp) (h : RunOk chatInit ops) :
    List.Pairwise (· < ·) (msgIds (chatRun chatInit ops).messages) ∧
    (msgIds (chatRun chatInit ops).messages).Nodup ∧
    (chatRun chatInit ops).messageIdSet =
      (msgIds (chatRun chatInit ops).messages).toFinset ∧
    msgIds (prependOlderMessages (resetMessages [mkMsg 10, mkMsg 11, mkMsg 12])
      [mkMsg 8, mkMsg 9, mkMsg 10]).messages = [8, 9, 10, 11, 12] := by
  have hinv := chatRun_inv chatInit_inv h
  refine ⟨hinv.1, ?_, hinv.2, by decide⟩
  exact hinv.1.imp Nat.ne_of_lt

/-- C1 witness: a run with an overlapping older page and an overlapping live
push, its arrival conditions checked by evaluation. -/
theorem chat_log_sorted_nodup_witness :
    List.Pairwise (· < ·) (msgIds (chatRun chatInit
      [ .initialLoad [mkMsg 10, mkMsg 11, mkMsg 12]
      , .livePush (mkMsg 13)
      , .olderPage [mkMsg 8, mkMsg 9, mkMsg 10]
      , .livePush (mkMsg 13) ]).messages) :=
  (chat_log_sorted_nodup
    [ .initialLoad [mkMsg 10, mkMsg 11, mkMsg 12]
    , .livePush (mkMsg 13)
    , .olderPage [mkMsg 8, mkMsg 9, mkMsg 10]
    , .livePush (mkMsg 13) ] (by decide)).1

/- ### Read-cursor sync (meeting chat page: `flushReadPointer`,
`scheduleReadPointerSync`) -/

/-- `readPointerRef` plus the in-flight request's captured `target` (a local
constant of `flushReadPointer`, lifted into the state so the request and
response halves of its `await` can interleave with other events). -/
structure ReadPointerState where
  synced : Int
  pending : Int
  inFlight : Bool
  flightTarget : Option Int
deriving DecidableEq, Repr

/-- Interleaved events over the read pointer: `schedule m` is
`scheduleReadPointerSync(m)` (`none` models a `null`/`undefined` id);
`flushStart` runs `flushReadPointer` up to its `await`, capturing `target`
and posting it as `last_read_message_id`; `flushSuccess` / `flushFailure`
resolve that `await` (the `finally` clears `inFlight`; the retry timer only
re-runs `flushReadPointer` later, i.e. a later `flushStart`). -/
inductive ReadSyncEvent
  | schedule (messageId : Option Int)
  | flushStart
  | flushSuccess
  | flushFailure
deriving DecidableEq, Repr

/-- One step; the second component is the value sent to the server by this
step, if any. -/
def rpStep (s : ReadPointerState) : ReadSyncEvent → ReadPointerState × Option Int
  | .schedule m =>
    match m with
    | none => (s, none)
    | some messageId =>
      if messageId ≤ 0 then (s, none)
      else if messageId ≤ s.synced ∧ messageId ≤ s.pending then (s, none)
      else ({ s with pending := max s.pending messageId }, none)
  | .flushStart =>
    if s.inFlight then (s, none)
    else if s.pending ≤ s.synced then (s, none)
    else ({ s with inFlight := true, flightTarget := some s.pending }, some s.pending)
  | .flushSuccess =>
    match s.flightTarget with
    | none => (s, none)
    | some target =>
      ({ s with synced := max s.synced target, inFlight := false, flightTarget := none }, none)
  | .flushFailure =>
    match s.flightTarget with
    | none => (s, none)
    | some _ => ({ s with inFlight := false, flightTarget := none }, none)

/-- Run a sequence of events, collecting the sent values in order. -/
def rpRun (s : ReadPointerState) : List ReadSyncEvent → ReadPointerState × List Int
  | [] => (s, [])
  | e :: es =>
    ((rpRun (rpStep s e).1 es).1, (rpStep s e).2.toList ++ (rpRun (rpStep s e).1 es).2)

/-- The ref as initialised on mount (and reset when the meeting changes). -/
def rpInit : ReadPointerState :=
  { synced := 0, pending := 0, inFlight := false, flightTarget := none }

/-- Induction invariant: `synced ≤ pending`, and a captured in-flight target
lies between them. -/
def ReadPointerInv (s : ReadPointerState) : Prop :=
  s.synced ≤ s.pending ∧ ∀ t ∈ s.flightTarget, s.synced ≤ t ∧ t ≤ s.pending

theorem rpInit_inv : ReadPointerInv rpInit := by
  constructor
  · exact le_refl 0
  · intro t ht
    simp [rpInit] at ht

theorem rpStep_pending_mono (s : ReadPointerState) (e : ReadSyncEvent) :
    s.pending ≤ (rpStep s e).1.pending := by
  cases e with
  | schedule m =>
    cases m with
    | none => exact le_refl _
    | some messageId =>
      simp only [rpStep]
      split_ifs <;> simp [le_max_left]
  | flushStart =>
    simp only [rpStep]
    split_ifs <;> exact le_refl _
  | flushSuccess =>
    simp only [rpStep]
    cases s.flightTarget <;> exact le_refl _
  | flushFailure =>
    simp only [rpStep]
    cases s.flightTarget <;> exact le_refl _

theorem rpStep_synced_mono (s : ReadPointerState) (e : ReadSyncEvent) :
    s.synced ≤ (rpStep s e).1.synced := by
  cases e with
  | schedule m =>
    cases m with
    | none => exact le_refl _
    | some messageId =>
      simp only [rpStep]
      split_ifs <;> exact le_refl _
  | flushStart =>
    simp only [rpStep]
    split_ifs <;> exact le_refl _
  | flushSuccess =>
    simp only [rpStep]
    cases s.flightTarget with
    | none => exact le_refl _
    | some target => exact le_max_left _ _
  | flushFailure =>
    simp only [rpStep]
    cases s.flightTarget <;> exact le_refl _

theorem rpStep_inv {s : ReadPointerState} (hs : ReadPointerInv s) (e : ReadSyncEvent) :
    ReadPointerInv (rpStep s e).1 := by
  obtain ⟨hsp, hft⟩ := hs
  cases e with
  | schedule m =>
    cases m with
    | none => exact ⟨hsp, hft⟩
    | some messageId =>
      simp only [rpStep]
      split_ifs with h0 h1
      · exact ⟨hsp, hft⟩
      · exact ⟨hsp, hft⟩
      · refine ⟨le_trans hsp (le_max_left _ _), ?_⟩
        intro t ht
        exact ⟨(hft t ht).1, le_trans (hft t ht).2 (le_max_left _ _)⟩
  | flushStart =>
    simp only [rpStep]
    split_ifs with h1 h2
    · exact ⟨hsp, hft⟩
    · exact ⟨hsp, hft⟩
    · refine ⟨hsp, ?_⟩
      intro t ht
      simp only [Option.mem_def, Option.some.injEq] at ht
      subst ht
      exact ⟨hsp, le_refl _⟩
  | flushSuccess =>
    simp only [rpStep]
    cases hm : s.flightTarget with
    | none => exact ⟨hsp, hft⟩
    | some target =>
      have htb := hft target (by simp [hm])
      refine ⟨max_le hsp htb.2, ?_⟩
      intro t ht
      simp at ht
  | flushFailure =>
    simp only [rpStep]
    cases hm : s.flightTarget with
    | none => exact ⟨hsp, hft⟩
    | some target =>
      refine ⟨hsp, ?_⟩
      intro t ht
      simp at ht

theorem rpStep_sent {s : ReadPointerState} {e : ReadSyncEvent} {v : Int}
    (h : (rpStep s e).2 = some v) :
    v = s.pending ∧ s.synced < v ∧ (rpStep s e).1.pending = s.pending := by
  cases e with
  | schedule m =>
    cases m with
    | none => simp [rpStep] at h
    | some messageId =>
      simp only [rpStep] at h
      split_ifs at h
  | flushStart =>
    simp only [rpStep] at h ⊢
    split_ifs at h ⊢ with h1 h2
    simp only [Option.some.injEq] at h
    subst h
    exact ⟨rfl, lt_of_not_le h2, rfl⟩
  | flushSuccess =>
    simp only [rpStep] at h
    cases hm : s.flightTarget with
    | none =>
      rw [hm] at h
      simp at h
    | some target =>
      rw [hm] at h
      simp at h
  | flushFailure =>
    simp only [rpStep] at h
    cases hm : s.flightTarget with
    | none =>
      rw [hm] at h
      simp at h
    | some target =>
      rw [hm] at h
      simp at h

theorem rpRun_pending_mono (s : ReadPointerState) (es : List ReadSyncEvent) :
    s.pending ≤ (rpRun s es).1.pending := by
  induction es generalizing s with
  | nil => exact le_refl _
  | cons e es ih =>
    exact le_trans (rpStep_pending_mono s e) (ih (rpStep s e).1)

theorem rpRun_inv {s : ReadPointerState} (hs : ReadPointerInv s) :
    ∀ es : List ReadSyncEvent, ReadPointerInv (rpRun s es).1 := by
  intro es
  induction es generalizing s with
  | nil => exact hs
  | cons e es ih => exact ih (rpStep_inv hs e)

theorem chain_le_of_le {a b : Int} {l : List Int} (hab : a ≤ b)
    (h : List.Chain (· ≤ ·) b l) : List.Chain (· ≤ ·) a l := by
  cases l with
  | nil => exact List.Chain.nil
  | cons c l =>
    cases h with
    | cons hbc hcl => exact List.Chain.cons (le_trans hab hbc) hcl

theorem rpRun_chain {s : ReadPointerState} (hs : ReadPointerInv s)
    (es : List ReadSyncEvent) :
    List.Chain (· ≤ ·) s.pending (rpRun s es).2 := by
  induction es generalizing s with
  | nil => exact List.Chain.nil
  | cons e es ih =>
    show List.Chain (· ≤ ·) s.pending ((rpStep s e).2.toList ++ (rpRun (rpStep s e).1 es).2)
    match hv : (rpStep s e).2 with
    | none =>
      simp only [Option.toList, List.nil_append]
      exact chain_le_of_le (rpStep_pending_mono s e) (ih (rpStep_inv hs e))
    | some v =>
      obtain ⟨hvp, _, hpend⟩ := rpStep_sent hv
      simp only [Option.toList, List.cons_append, List.nil_append]
      refine List.Chain.cons (le_of_eq hvp.symm) ?_
      have := ih (rpStep_inv hs e)
      rw [hpend, ← hvp] at this
      exact this

theorem chain_le_forall {a : Int} {l : List Int}
    (h : List.Chain (· ≤ ·) a l) : ∀ b ∈ l, a ≤ b := by
  induction l generalizing a with
  | nil => intro b hb; simp at hb
  | cons c l ih =>
    cases h with
    | cons hac hcl =>
      intro b hb
      rcases List.mem_cons.mp hb with hb | hb
      · exact hb ▸ hac
      · exact le_trans hac (ih hcl b hb)

/-- C2: after every prefix of events the read pointer satisfies
`synced ≤ pending`; `pending` never decreases across further events; the
sequence of `last_read_message_id` values sent over any whole run is
monotonically non-decreasing (chained above the initial `synced`); and every
value sent after some prefix is at least the `synced` value reached by that
prefix — no sent value is ever lower than the last successfully synced
value. -/
theorem read_pointer_contract (l1 l2 : List ReadSyncEvent) :
    (rpRun rpInit l1).1.synced ≤ (rpRun rpInit l1).1.pending ∧
    (rpRun rpInit l1).1.pending ≤ (rpRun (rpRun rpInit l1).1 l2).1.pending ∧
    List.Chain (· ≤ ·) rpInit.synced (rpRun rpInit (l1 ++ l2)).2 ∧
    (∀ v ∈ (rpRun (rpRun rpInit l1).1 l2).2, (rpRun rpInit l1).1.synced ≤ v) := by
  have h1 := rpRun_inv rpInit_inv l1
  refine ⟨h1.1, rpRun_pending_mono _ l2, ?_, ?_⟩
  · exact chain_le_of_le rpInit_inv.1 (rpRun_chain rpInit_inv (l1 ++ l2))
  · intro v hv
    exact le_trans h1.1 (chain_le_forall (rpRun_chain h1 l2) v hv)

/-- C2 witness: a run in which an advance to 5 is flushed, a failure, a
further advance to 9 during the retry window and a re-flush; the value 9 sent
after the prefix is at least the synced value of the prefix. -/
theorem read_pointer_contract_witness :
    9 ∈ (rpRun (rpRun rpInit [.schedule (some 5), .flushStart, .flushSuccess]).1
      [.schedule (some 9), .flushStart]).2 ∧
    (rpRun rpInit [.schedule (some 5), .flushStart, .flushSuccess]).1.synced ≤ 9 :=
  ⟨by decide,
   (read_pointer_contract [.schedule (some 5), .flushStart, .flushSuccess]
     [.schedule (some 9), .flushStart]).2.2.2 9 (by decide)⟩

/- ### Unread-counts subscription (meeting chat page) -/

/-- One item of an `unread_counts_updated` payload. -/
structure UnreadItem where
  message_id : Nat
  unread_count : Nat
deriving DecidableEq, Repr

/-- The `basis` object of an `unread_counts_updated` payload (carried but not
consulted by the handler). -/
structure UnreadBasis where
  window_size : Nat
  from_message_id : Option Nat
  to_message_id : Option Nat
deriving DecidableEq, Repr

/-- The `data` of an `unread_counts_updated` frame. -/
structure UnreadCountsEvent where
  meeting_id : Nat
  basis : UnreadBasis
  items : List UnreadItem
  server_version : Nat
  generated_at : String
deriving DecidableEq, Repr

/-- `new Map(items.map(i => [i.message_id, i.unread_count])).get(k)`: a later
entry with the same key overwrites an earlier one. -/
def jsMapGet (entries : List UnreadItem) (k : Nat) : Option Nat :=
  entries.foldl
    (fun acc item => if item.message_id = k then some item.unread_count else acc) none

/-- `unreadServerVersionRef` together with the message list, as consulted by
the unread-counts subscription handler. -/
structure UnreadSubState where
  version : Nat
  messages : List ChatMessageItem
deriving DecidableEq, Repr

/-- The `unread-counts` subscription handler: a frame whose `server_version`
is below the highest applied one is dropped before touching any state;
otherwise the version is recorded and each message's `unread_count` is
rewritten from the map (messages absent from the map, or already carrying the
value, are returned unchanged). -/
def applyUnreadEvent (s : UnreadSubState) (e : UnreadCountsEvent) : UnreadSubState :=
  if e.server_version < s.version then s
  else
    { version := e.server_version
    , messages := s.messages.map fun message =>
        match jsMapGet e.items message.message_id with
        | none => message
        | some nextUnread =>
          if message.unread_count = some nextUnread then message
          else { message with unread_count := some nextUnread } }

def applyUnreadRun (s : UnreadSubState) : List UnreadCountsEvent → UnreadSubState
  | [] => s
  | e :: es => applyUnreadRun (applyUnreadEvent s e) es

/-- C10: the handler applies an event only when its `server_version` is at
least the highest applied so far (the recorded version); a stale event with a
lower version leaves the whole state — every message's `unread_count`
included — unchanged; when applied, the recorded version becomes the event's;
and the recorded version is monotonically non-decreasing over one event and
over any sequence of received events. -/
theorem unread_version_monotone (s : UnreadSubState) (e : UnreadCountsEvent)
    (es : List UnreadCountsEvent) :
    (e.server_version < s.version → applyUnreadEvent s e = s) ∧
    (¬ e.server_version < s.version →
      (applyUnreadEvent s e).version = e.server_version) ∧
    s.version ≤ (applyUnreadEvent s e).version ∧
    s.version ≤ (applyUnreadRun s es).version := by
  refine ⟨?_, ?_, ?_, ?_⟩
  · intro h
    simp [applyUnreadEvent, h]
  · intro h
    simp [applyUnreadEvent, h]
  · by_cases h : e.server_version < s.version
    · simp [applyUnreadEvent, h]
    · simp [applyUnreadEvent, h]
      omega
  · induction es generalizing s with
    | nil => exact le_refl _
    | cons e1 es ih =>
      refine le_trans ?_ (ih (applyUnreadEvent s e1))
      by_cases h : e1.server_version < s.version
      · simp [applyUnreadEvent, h]
      · simp [applyUnreadEvent, h]
        omega

/-- C10 witness: a stale event (version 3 below the applied 5) leaves a
concrete state untouched. -/
theorem unread_version_monotone_witness :
    applyUnreadEvent ⟨5, [mkMsg 10]⟩
      ⟨1, ⟨50, none, none⟩, [⟨10, 4⟩], 3, "t"⟩ = ⟨5, [mkMsg 10]⟩ :=
  (unread_version_monotone ⟨5, [mkMsg 10]⟩
    ⟨1, ⟨50, none, none⟩, [⟨10, 4⟩], 3, "t"⟩ []).1 (by decide)

/- ### Chat send guard (`handleSendMessage`, meeting chat page) -/

/-- JavaScript `String.prototype.trim()` (strip leading and trailing
whitespace), written over the character list so it evaluates in the
kernel. -/
def jsTrim (s : String) : String :=
  ⟨((s.data.dropWhile Char.isWhitespace).reverse.dropWhile Char.isWhitespace).reverse⟩

/-- The refs consulted by `handleSendMessage`: `sendGuardRef` is raised on
publish and cleared by a 120 ms timer — modelled as the absolute time until
which the flag is still set — and `lastSentRef` records the last published
text and its timestamp. -/
structure SendGuardState where
  guardUntil : Nat
  lastSent : Option (String × Nat)
deriving DecidableEq, Repr

/-- How one invocation of `handleSendMessage` ends. -/
inductive SendOutcome
  | published (text : String)
  | emptyText
  | blockedByGuardFlag
  | blockedDuplicate
  | blockedDisconnected
deriving DecidableEq, Repr

/-- Whether the outcome sets the user-visible `ephemeralNotice` (the
duplicate-send and not-connected notices do; the `sendGuardRef` early return
is silent). -/
def SendOutcome.showsNotice : SendOutcome → Bool
  | .blockedDuplicate => true
  | .blockedDisconnected => true
  | _ => false

/-- Whether a frame was handed to `client.publish`. -/
def SendOutcome.didPublish : SendOutcome → Bool
  | .published _ => true
  | _ => false

/-- The identical-text window check
`lastSent && lastSent.text === text && now - lastSent.at < 400` (truncated
subtraction agrees with the JavaScript comparison: a clock running backwards
would give a negative difference, which is also `< 400`). -/
def inDuplicateWindow (lastSent : Option (String × Nat)) (text : String)
    (now : Nat) : Bool :=
  match lastSent with
  | none => false
  | some last => last.1 == text && decide (now - last.2 < 400)

/-- `handleSendMessage` at absolute time `now`: trim the composer; do nothing
on empty text; return silently while `sendGuardRef` is still set; block with
the duplicate notice inside the 400 ms identical-text window; block with the
connectivity notice when the transport is not connected; otherwise record
`lastSent`, raise the guard flag (cleared 120 ms later) and publish.  The
guard returns precede the publish, so a blocked send performs no network
activity. -/
def handleSendMessage (s : SendGuardState) (composer : String) (connected : Bool)
    (now : Nat) : SendGuardState × SendOutcome :=
  let text := jsTrim composer
  if text = "" then (s, .emptyText)
  else if now < s.guardUntil then (s, .blockedByGuardFlag)
  else if inDuplicateWindow s.lastSent text now then (s, .blockedDuplicate)
  else if !connected then (s, .blockedDisconnected)
  else ({ guardUntil := now + 120, lastSent := some (text, now) }, .published text)

theorem handleSendMessage_published {s : SendGuardState} {composer : String}
    {connected : Bool} {t : Nat} {txt : String}
    (h : (handleSendMessage s composer connected t).2 = .published txt) :
    handleSendMessage s composer connected t =
      ({ guardUntil := t + 120, lastSent := some (jsTrim composer, t) },
        .published (jsTrim composer)) := by
  unfold handleSendMessage at h ⊢
  by_cases he : jsTrim composer = ""
  · rw [if_pos he] at h
    exact absurd h (by simp)
  · rw [if_neg he] at h ⊢
    by_cases hg : t < s.guardUntil
    · rw [if_pos hg] at h
      exact absurd h (by simp)
    · rw [if_neg hg] at h ⊢
      by_cases hd : inDuplicateWindow s.lastSent (jsTrim composer) t = true
      · rw [if_pos hd] at h
        exact absurd h (by simp)
      · rw [if_neg hd] at h ⊢
        cases connected with
        | false => simp at h
        | true =>
          simp only [Bool.not_true] at h ⊢
          rw [if_neg (by simp)] at h ⊢

/-- C8 counterexample: two identical `"hello"` sends 50 ms apart — well
within the claimed 400 ms guard window — where the second is suppressed by
the `sendGuardRef` flag silently: no user-visible notice is produced, because
the duplicate notice appears only once the 120 ms flag window has passed.
Exactly one publish is issued, but the claimed notice does not appear. -/
theorem send_guard_silent_within_flag_window :
    (handleSendMessage ⟨0, none⟩ "hello" true 1000).2 = .published "hello" ∧
    (handleSendMessage (handleSendMessage ⟨0, none⟩ "hello" true 1000).1
      "hello" true 1050).2 = .blockedByGuardFlag ∧
    SendOutcome.showsNotice
      (handleSendMessage (handleSendMessage ⟨0, none⟩ "hello" true 1000).1
        "hello" true 1050).2 = false ∧
    SendOutcome.didPublish
      (handleSendMessage (handleSendMessage ⟨0, none⟩ "hello" true 1000).1
        "hello" true 1050).2 = false := by
  refine ⟨by decide, by decide, by decide, by decide⟩

/-- C8 (amended): when a send publishes and a second send of identical
trimmed text over a connected transport is triggered within 400 ms, the
second is always locally suppressed before any network activity — exactly one
publish is issued; the suppression carries the duplicate-send notice when at
least 120 ms have passed (the guard-flag window), and is silent within
120 ms. -/
theorem send_guard_duplicate (s : SendGuardState) (composer : String)
    (t1 t2 : Nat)
    (hpub : (handleSendMessage s composer true t1).2 = .published (jsTrim composer))
    (hwin : t2 - t1 < 400) :
    ((handleSendMessage (handleSendMessage s composer true t1).1
        composer true t2).2.didPublish = false) ∧
    (120 ≤ t2 - t1 →
      (handleSendMessage (handleSendMessage s composer true t1).1
        composer true t2).2 = .blockedDuplicate) ∧
    (t2 - t1 < 120 →
      (handleSendMessage (handleSendMessage s composer true t1).1
        composer true t2).2 = .blockedByGuardFlag) := by
  have h1 := handleSendMessage_published hpub
  rw [h1]
  have hne : ¬ jsTrim composer = "" := by
    intro he
    rw [handleSendMessage] at hpub
    simp only [he] at hpub
    simp at hpub
  by_cases hflag : t2 < t1 + 120
  · refine ⟨?_, ?_, ?_⟩
    · simp [handleSendMessage, hne, hflag, SendOutcome.didPublish]
    · intro hge
      exact absurd hge (by omega)
    · intro _
      simp [handleSendMessage, hne, hflag]
  · have hdup : inDuplicateWindow (some (jsTrim composer, t1)) (jsTrim composer) t2 = true := by
      simp [inDuplicateWindow, hwin]
    refine ⟨?_, ?_, ?_⟩
    · simp [handleSendMessage, hne, hflag, hdup, SendOutcome.didPublish]
    · intro _
      simp [handleSendMessage, hne, hflag, hdup]
    · intro hlt
      exact absurd hlt (by omega)

/-- C8 witness: the spec scenario — two identical `"hello"` sends 300 ms
apart: the second is suppressed with the duplicate notice. -/
theorem send_guard_duplicate_witness :
    (handleSendMessage (handleSendMessage ⟨0, none⟩ "hello" true 1000).1
      "hello" true 1300).2 = .blockedDuplicate :=
  (send_guard_duplicate ⟨0, none⟩ "hello" 1000 1300 (by decide) (by decide)).2.1
    (by decide)
